import Mathlib

/-!
# Verification of the inventory backend (`src/backend/server.js`)

Shallow embedding of the Express + MySQL inventory server: the json2csv
CSV export, the PDFKit row rendering, the request handlers with their
validation and defaulting, the per-request connection lifecycle, and the
`ORDER BY name` listing.  Theorems at the end settle the spec claims.
-/

namespace Inventory

/-! ## Decimal rendering of integers

Models JavaScript's `ToString` on an integer-valued number (the only
number rendering the CSV and PDF paths apply to integer data). -/

/-- The decimal digit character for `d < 10` (code point `48 + d`). -/
def digitChar (d : Nat) : Char := Char.ofNat (48 + d)

/-- Accumulator-style decimal rendering of a natural number. -/
def natReprAux (n : Nat) (acc : List Char) : List Char :=
  if n < 10 then digitChar n :: acc
  else natReprAux (n / 10) (digitChar (n % 10) :: acc)
termination_by n
decreasing_by exact Nat.div_lt_self (by omega) (by omega)

/-- Decimal rendering of an integer, `-` sign first when negative. -/
def intRepr (n : Int) : List Char :=
  if n < 0 then '-' :: natReprAux n.natAbs [] else natReprAux n.natAbs []

/-! ## CSV cell values

A value that can sit in a cell handed to `json2csv` by the CSV export
route: a JavaScript string or an (integer-valued) number. -/

inductive JVal where
  | vStr (s : String)
  | vNum (n : Int)
deriving DecidableEq

/-- The text content a cell carries, read back as a string:
a string is itself, a number is its decimal rendering. -/
def cellString : JVal → String
  | .vStr s => s
  | .vNum n => String.mk (intRepr n)

/-! ## The json2csv emitter (`GET /export/csv`, lines 143-149)

`new Parser({ fields }).parse(rows)`: every string value is wrapped in
double quotes with each embedded quote replaced by the escaped quote
`""`; numbers are emitted bare; the header row holds the field labels
(strings, hence quoted); rows are joined with `\n` and there is no
trailing newline. -/

/-- Replace every `"` by `""` (json2csv `value.replace(quote, escapedQuote)`). -/
def escQuotes : List Char → List Char
  | [] => []
  | c :: cs => if c = '"' then '"' :: '"' :: escQuotes cs else c :: escQuotes cs

/-- json2csv `processValue`: strings quoted with doubled embedded quotes,
numbers rendered bare. -/
def cellChars : JVal → List Char
  | .vStr s => '"' :: (escQuotes s.data ++ ['"'])
  | .vNum n => intRepr n

/-- One record as handed to the CSV formatter: the six columns of the
`inventory` table, in the emitter's fixed field order. -/
structure CsvRec where
  id : JVal
  name : JVal
  quantity : JVal
  price : JVal
  category : JVal
  supplier : JVal
deriving DecidableEq

/-- The cells of a record in the fixed field order of line 143. -/
def recCells (r : CsvRec) : List JVal :=
  [r.id, r.name, r.quantity, r.price, r.category, r.supplier]

/-- The fixed field list of line 143. -/
def csvFields : List String :=
  ["id", "name", "quantity", "price", "category", "supplier"]

/-- Cells after the first one, each preceded by the delimiter. -/
def lineTail (vs : List JVal) : List Char :=
  vs.flatMap (fun v => ',' :: cellChars v)

/-- One CSV line: the cells joined with `,` (json2csv row join). -/
def lineChars : List JVal → List Char
  | [] => []
  | v :: vs => cellChars v ++ lineTail vs

/-- The whole CSV byte stream: header line, then each record line
preceded by the `\n` end-of-line (json2csv emits
`header + (rows ? eol + rows-joined-by-eol : '')`, which for a record
list is exactly the header followed by `\n`-prefixed lines). -/
def csvChars (rows : List CsvRec) : List Char :=
  lineChars (csvFields.map JVal.vStr) ++
    rows.flatMap (fun r => '\n' :: lineChars (recCells r))

/-- The body string sent by `res.send(csv)` on the CSV export route. -/
def csvExportBody (rows : List CsvRec) : String :=
  String.mk (csvChars rows)

/-! ## A standard CSV parser

A single-pass RFC-4180 field/record reader, the shape of a standard
streaming CSV parser: quoted fields with `""` as an escaped quote,
`,` as delimiter, `\n` as record separator.  Used to state the
round-trip property of the export. -/

inductive CsvMode where
  | atFieldStart
  | inUnquoted
  | inQuoted
  | afterQuote
deriving DecidableEq

structure PState where
  mode : CsvMode
  field : List Char
  row : List String
  acc : List (List String)
deriving DecidableEq

/-- Consume one character. -/
def step (st : PState) (c : Char) : PState :=
  match st.mode with
  | .atFieldStart =>
    if c = '"' then { st with mode := .inQuoted }
    else if c = ',' then
      { st with
        row := st.row ++ [String.mk st.field]
        field := [] }
    else if c = '\n' then
      { mode := .atFieldStart
        field := []
        row := []
        acc := st.acc ++ [st.row ++ [String.mk st.field]] }
    else
      { st with
        mode := .inUnquoted
        field := st.field ++ [c] }
  | .inUnquoted =>
    if c = ',' then
      { st with
        mode := .atFieldStart
        row := st.row ++ [String.mk st.field]
        field := [] }
    else if c = '\n' then
      { mode := .atFieldStart
        field := []
        row := []
        acc := st.acc ++ [st.row ++ [String.mk st.field]] }
    else { st with field := st.field ++ [c] }
  | .inQuoted =>
    if c = '"' then { st with mode := .afterQuote }
    else { st with field := st.field ++ [c] }
  | .afterQuote =>
    if c = '"' then
      { st with
        mode := .inQuoted
        field := st.field ++ [c] }
    else if c = ',' then
      { st with
        mode := .atFieldStart
        row := st.row ++ [String.mk st.field]
        field := [] }
    else if c = '\n' then
      { mode := .atFieldStart
        field := []
        row := []
        acc := st.acc ++ [st.row ++ [String.mk st.field]] }
    else
      { st with
        mode := .inUnquoted
        field := st.field ++ [c] }

/-- Flush the pending field and row at end of input; an input ending
right after a record separator (or an empty input) adds no row. -/
def finishP (st : PState) : List (List String) :=
  if st.mode = .atFieldStart ∧ st.field = [] ∧ st.row = [] then st.acc
  else st.acc ++ [st.row ++ [String.mk st.field]]

def initP : PState := ⟨.atFieldStart, [], [], []⟩

/-- Parse a CSV document into its records of string fields. -/
def csvParse (s : String) : List (List String) :=
  finishP (s.data.foldl step initP)

/-! ## JavaScript values, truthiness, and request bodies -/

/-- A JSON/JavaScript value as it reaches the handlers. -/
inductive JsVal where
  | undef
  | null
  | boolean (b : Bool)
  | num (n : Int)
  | str (s : String)
deriving DecidableEq

/-- JavaScript truthiness. -/
def truthy : JsVal → Bool
  | .undef => false
  | .null => false
  | .boolean b => b
  | .num n => n != 0
  | .str s => s != ""

/-- `v || d` on a JavaScript value (the defaulting of lines 85 and 105). -/
def jsOr (v d : JsVal) : JsVal := if truthy v then v else d

/-- A request body as destructured on lines 78 and 98: `name` and
`quantity` carry the types the API contract gives them (`none` models
absent or `null`), the optional fields are arbitrary JSON values. -/
structure Body where
  name : Option String
  quantity : Option Int
  price : JsVal
  category : JsVal
  supplier : JsVal
deriving DecidableEq

/-- JavaScript truthiness of the `name` value (the `!name` test). -/
def nameTruthy : Option String → Bool
  | none => false
  | some s => s != ""

/-- `quantity == null` is false exactly when a quantity is present
(loose equality with `null` holds for `undefined` and `null` only). -/
def quantityPresent : Option Int → Bool
  | none => false
  | some _ => true

/-- The validation guard of lines 79 and 99: the request passes when
`name` is truthy and `quantity` is not loosely null. -/
def bodyValid (b : Body) : Bool :=
  nameTruthy b.name && quantityPresent b.quantity

/-- The parameter array bound on lines 85 and 105:
`[name, quantity, price || 0, category || '', supplier || '']`. -/
def boundParams (b : Body) : List JsVal :=
  [ (match b.name with | none => .undef | some s => .str s)
  , (match b.quantity with | none => .undef | some n => .num n)
  , jsOr b.price (.num 0)
  , jsOr b.category (.str "")
  , jsOr b.supplier (.str "") ]

/-! ## The inventory table and the store accessor -/

/-- One row of the `inventory` table: `id` store-assigned, `name`,
`category` and `supplier` string columns, `quantity` an integer column,
`price` kept as the cell value the driver returns for it (a number, or
a string for a decimal column). -/
structure Row where
  id : Nat
  name : String
  quantity : Int
  price : JVal
  category : String
  supplier : String
deriving DecidableEq

/-- Store-side coercion of a bound parameter into a string column.
After the `|| ''` defaulting of lines 85/105 the bound value is never
`null` or `undefined`, so those cases are inert defaults. -/
def dbStr : JsVal → String
  | .str s => s
  | .num n => String.mk (intRepr n)
  | .boolean b => if b then "1" else "0"
  | _ => ""

/-- Store-side coercion of a bound parameter into the price column. -/
def dbPrice : JsVal → JVal
  | .num n => .vNum n
  | .str s => .vStr s
  | .boolean b => .vNum (if b then 1 else 0)
  | _ => .vNum 0

/-- The row written by the INSERT of lines 83-86 or the UPDATE of lines
103-106, for a body that passed validation. -/
def rowOfBody (i : Nat) (b : Body) : Row :=
  { id := i
    name := b.name.getD ""          -- validation guarantees a truthy name
    quantity := b.quantity.getD 0   -- validation guarantees a quantity
    price := dbPrice (jsOr b.price (.num 0))
    category := dbStr (jsOr b.category (.str ""))
    supplier := dbStr (jsOr b.supplier (.str "")) }

/-- `AUTO_INCREMENT`: the id the store assigns to the next insert. -/
def nextId (store : List Row) : Nat :=
  store.foldl (fun m r => max m r.id) 0 + 1

/-- `SELECT * FROM inventory ORDER BY name` (lines 52, 140 and 160).
The statement is executed by the store; per its semantics it returns
the table's rows sorted by `name` ascending. -/
def listAll (store : List Row) : List Row :=
  store.mergeSort (fun a b => a.name ≤ b.name)

/-- The rows matched by a `WHERE id = ?` clause (lines 65, 104, 123). -/
def rowsWithId (store : List Row) (i : Nat) : List Row :=
  store.filter (fun r => r.id == i)

/-! ## HTTP responses and the request handlers

Each handler takes the store contents and a `dbFail` argument: `none`
when connection and query succeed, `some e` when either rejects with
error detail `e` (the `catch` paths of the source log `e` and send a
fixed response). -/

inductive RespBody where
  | jsonError (e : String)
  | jsonMessage (m : String)
  | jsonItem (r : Row)
  | jsonList (rs : List Row)
  | fileBody (t : String)
  | fileTexts (ts : List String)
deriving DecidableEq

structure HttpResp where
  status : Nat
  body : RespBody
deriving DecidableEq

/-- The catch-branch response of every JSON route
(lines 57, 71, 91, 115, 132). -/
def dbErrorResp : HttpResp := ⟨500, .jsonError "Database error"⟩

/-- The missing-row response (lines 67, 110, 127). -/
def notFoundResp : HttpResp := ⟨404, .jsonError "Item not found"⟩

/-- The failed-validation response (lines 80, 100). -/
def validationResp : HttpResp :=
  ⟨400, .jsonError "Name and quantity are required"⟩

/-- `GET /inventory` (lines 49-59). -/
def getInventoryRoute (store : List Row) (dbFail : Option String) : HttpResp :=
  match dbFail with
  | some _ => dbErrorResp
  | none => ⟨200, .jsonList (listAll store)⟩

/-- `GET /inventory/:id` (lines 62-73): `rows[0]` of the id query, or
404 when the result set is empty. -/
def getByIdRoute (store : List Row) (i : Nat) (dbFail : Option String) :
    HttpResp :=
  match dbFail with
  | some _ => dbErrorResp
  | none =>
    match rowsWithId store i with
    | [] => notFoundResp
    | r :: _ => ⟨200, .jsonItem r⟩

/-- `POST /inventory` (lines 76-93): validation runs before the
connection is opened, so a store failure is reachable only for a valid
body. -/
def createRoute (b : Body) (store : List Row) (dbFail : Option String) :
    HttpResp × List Row :=
  if bodyValid b then
    match dbFail with
    | some _ => (dbErrorResp, store)
    | none =>
      (⟨200, .jsonMessage "Item added"⟩,
        store ++ [rowOfBody (nextId store) b])
  else (validationResp, store)

/-- `PUT /inventory/:id` (lines 96-117): `affectedRows` of the UPDATE
is the number of rows its `WHERE id = ?` clause matched. -/
def updateRoute (b : Body) (store : List Row) (i : Nat)
    (dbFail : Option String) : HttpResp × List Row :=
  if bodyValid b then
    match dbFail with
    | some _ => (dbErrorResp, store)
    | none =>
      let store' := store.map (fun r => if r.id == i then rowOfBody r.id b else r)
      if (rowsWithId store i).length = 0 then (notFoundResp, store')
      else (⟨200, .jsonMessage "Item updated"⟩, store')
  else (validationResp, store)

/-- `DELETE /inventory/:id` (lines 120-134). -/
def deleteRoute (store : List Row) (i : Nat) (dbFail : Option String) :
    HttpResp × List Row :=
  match dbFail with
  | some _ => (dbErrorResp, store)
  | none =>
    if (rowsWithId store i).length = 0 then (notFoundResp, store)
    else
      (⟨200, .jsonMessage "Item deleted"⟩,
        store.filter (fun r => !(r.id == i)))

/-- The CSV cells of a stored row, in the field order of line 143. -/
def toCsvRec (r : Row) : CsvRec :=
  ⟨.vNum r.id, .vStr r.name, .vNum r.quantity, r.price,
    .vStr r.category, .vStr r.supplier⟩

/-- `GET /export/csv` (lines 137-154). -/
def csvRoute (store : List Row) (dbFail : Option String) : HttpResp :=
  match dbFail with
  | some _ => ⟨500, .fileBody "Failed to export CSV"⟩
  | none => ⟨200, .fileBody (csvExportBody ((listAll store).map toCsvRec))⟩

/-! ## The PDF export formatter (`GET /export/pdf`, lines 157-203) -/

/-- What `parseFloat(item.price)` sees in the stored price cell: a
missing value (`NULL` column), a numeric value — represented exactly in
hundredths — or a string on which it yields `NaN`. -/
inductive PriceVal where
  | missing
  | numeric (cents : Int)
  | nonNumeric (s : String)
deriving DecidableEq

/-- An item as the PDF renderer reads it; `none` models a `NULL` cell. -/
structure PdfItem where
  name : String
  quantity : Option Int
  price : PriceVal
  category : Option String
  supplier : Option String
deriving DecidableEq

/-- `s || d` for strings: the empty string is the only falsy one. -/
def strOr (s d : String) : String := if s = "" then d else s

/-- `item.quantity?.toString() || '0'` (line 191): optional chaining
yields `undefined` on a missing quantity, and `||` replaces it. -/
def pdfQtyCell : Option Int → String
  | none => "0"
  | some n => strOr (String.mk (intRepr n)) "0"

/-- `parseFloat(item.price) || 0`, in hundredths: `NaN` (missing or
non-numeric price) falls back to `0`; a numeric value passes through
(`0 || 0` is again `0`). -/
def parseFloatOr0 : PriceVal → Int
  | .missing => 0
  | .nonNumeric _ => 0
  | .numeric c => c

/-- Two-digit zero-padded decimal rendering of `r % 100`. -/
def pad2 (r : Nat) : List Char := [digitChar (r / 10 % 10), digitChar (r % 10)]

/-- `x.toFixed(2)` for a value that is exactly `cents / 100`. -/
def toFixed2 (cents : Int) : String :=
  String.mk ((if cents < 0 then ['-'] else []) ++
    natReprAux (cents.natAbs / 100) [] ++ '.' :: pad2 (cents.natAbs % 100))

/-- The currency prefix of line 192, exactly as it stands in the source
(the mojibake rendering of the rupee sign). -/
def currencyGlyph : String := "â‚¹"

/-- `'â‚¹' + (parseFloat(item.price) || 0).toFixed(2)` (line 192). -/
def pdfPriceCell (p : PriceVal) : String :=
  currencyGlyph ++ toFixed2 (parseFloatOr0 p)

/-- `item.category || '-'` and `item.supplier || '-'` (lines 193-194). -/
def pdfDashCell : Option String → String
  | none => "-"
  | some s => strOr s "-"

/-- The strings one row contributes to the document, in the order of
the `doc.text` calls of lines 190-194. -/
def pdfRowCells (it : PdfItem) : List String :=
  [it.name, pdfQtyCell it.quantity, pdfPriceCell it.price,
    pdfDashCell it.category, pdfDashCell it.supplier]

/-- Every string written into the PDF document, in order: the title of
line 171, the header labels of lines 181-185, then each row's cells. -/
def pdfTexts (items : List PdfItem) : List String :=
  "Inventory Report" :: "Name" :: "Qty" :: "Price" :: "Category" ::
    "Supplier" :: items.flatMap pdfRowCells

/-- A stored row as the PDF renderer sees it.  A stored string price is
handed to `parseFloat`; the embedding carries it abstractly as a
non-numeric string (no theorem depends on how `parseFloat` reads it). -/
def toPdfItem (r : Row) : PdfItem :=
  { name := r.name
    quantity := some r.quantity
    price := match r.price with
      | .vNum n => .numeric (100 * n)
      | .vStr s => .nonNumeric s
    category := some r.category
    supplier := some r.supplier }

/-- `GET /export/pdf` (lines 157-203). -/
def pdfRoute (store : List Row) (dbFail : Option String) : HttpResp :=
  match dbFail with
  | some _ => ⟨500, .fileBody "Failed to export PDF"⟩
  | none => ⟨200, .fileTexts (pdfTexts ((listAll store).map toPdfItem))⟩

/-! ## Connection lifecycle

All seven handlers share one shape:
`const conn = await getConnection(); ... await conn.query(...); await conn.end();`
inside `try`, with a `catch` block that only logs and sends the error
response — it does not call `conn.end()`. -/

inductive DbEv where
  | acquire
  | query
  | release
deriving DecidableEq

/-- How the store behaves on one request. -/
inductive StoreOutcome where
  | connFail (e : String)
  | queryFail (e : String)
  | ok
deriving DecidableEq

/-- `await getConnection()`: the resource events it emits and whether
it threw. -/
def connectStep : StoreOutcome → List DbEv × Bool
  | .connFail _ => ([], true)
  | _ => ([.acquire], false)

/-- `await conn.query(...)`. -/
def queryStep : StoreOutcome → List DbEv × Bool
  | .queryFail _ => ([.query], true)
  | _ => ([.query], false)

/-- `await conn.end()`. -/
def endStep : List DbEv × Bool := ([.release], false)

/-- Sequencing inside `try`: a thrown `await` skips the rest of the
block and lands in `catch`. -/
def andThen (a b : List DbEv × Bool) : List DbEv × Bool :=
  if a.2 then a else (a.1 ++ b.1, b.2)

/-- The resource events of one handler invocation. -/
def routeDbTrace (o : StoreOutcome) : List DbEv :=
  (andThen (connectStep o) (andThen (queryStep o) endStep)).1

/-! ## Character content of decimal renderings -/

theorem natReprAux_mem (n : Nat) (acc : List Char) :
    ∀ c ∈ natReprAux n acc, (∃ d, d < 10 ∧ c = digitChar d) ∨ c ∈ acc := by
  induction n using Nat.strong_induction_on generalizing acc with
  | _ n ih =>
    rw [natReprAux]
    split
    · intro c hc
      rcases List.mem_cons.mp hc with h | h
      · exact .inl ⟨n, by omega, h⟩
      · exact .inr h
    · intro c hc
      rcases ih (n / 10) (Nat.div_lt_self (by omega) (by omega)) _ c hc with h | h
      · exact .inl h
      · rcases List.mem_cons.mp h with h' | h'
        · exact .inl ⟨n % 10, Nat.mod_lt _ (by omega), h'⟩
        · exact .inr h'

theorem natReprAux_ne_nil (n : Nat) (acc : List Char) : natReprAux n acc ≠ [] := by
  induction n using Nat.strong_induction_on generalizing acc with
  | _ n ih =>
    rw [natReprAux]
    split
    · simp
    · exact ih (n / 10) (Nat.div_lt_self (by omega) (by omega)) _

theorem digitChar_not_special : ∀ d, d < 10 →
    digitChar d ≠ '"' ∧ digitChar d ≠ ',' ∧ digitChar d ≠ '\n' := by decide

/-- Every character of a rendered integer is a digit or the minus sign,
so never the quote, the delimiter, or the record separator. -/
theorem intRepr_not_special (n : Int) :
    ∀ c ∈ intRepr n, c ≠ '"' ∧ c ≠ ',' ∧ c ≠ '\n' := by
  intro c hc
  unfold intRepr at hc
  have hdig : ∀ c, c ∈ natReprAux n.natAbs [] →
      c ≠ '"' ∧ c ≠ ',' ∧ c ≠ '\n' := by
    intro c hc
    rcases natReprAux_mem _ _ c hc with ⟨d, hd, rfl⟩ | h
    · exact digitChar_not_special d hd
    · cases h
  split at hc
  · rcases List.mem_cons.mp hc with rfl | h
    · refine ⟨by decide, by decide, by decide⟩
    · exact hdig c h
  · exact hdig c hc

theorem intRepr_ne_nil (n : Int) : intRepr n ≠ [] := by
  unfold intRepr
  split
  · simp
  · exact natReprAux_ne_nil _ _

/-! ## Running the CSV parser over emitted output -/

/-- A state in the middle of a line: the mode after at least one
character of a field has been read (an unquoted field body, or the
position just after a closing quote). -/
def MidL (m : CsvMode) : Prop := m = .inUnquoted ∨ m = .afterQuote

theorem step_mid_comma {m f row acc} (h : MidL m) :
    step ⟨m, f, row, acc⟩ ',' =
      ⟨.atFieldStart, [], row ++ [String.mk f], acc⟩ := by
  rcases h with rfl | rfl <;> simp [step]

theorem step_mid_newline {m f row acc} (h : MidL m) :
    step ⟨m, f, row, acc⟩ '\n' =
      ⟨.atFieldStart, [], [], acc ++ [row ++ [String.mk f]]⟩ := by
  rcases h with rfl | rfl <;> simp [step]

theorem finishP_mid {m f row acc} (h : MidL m) :
    finishP ⟨m, f, row, acc⟩ = acc ++ [row ++ [String.mk f]] := by
  rcases h with rfl | rfl <;> simp [finishP]

/-- Inside a quoted field, the escaped content of `s` is read back as
exactly `s`. -/
theorem run_escQuotes (s : List Char) :
    ∀ f row acc, List.foldl step ⟨.inQuoted, f, row, acc⟩ (escQuotes s) =
      ⟨.inQuoted, f ++ s, row, acc⟩ := by
  induction s with
  | nil => intro f row acc; simp [escQuotes]
  | cons c cs ih =>
    intro f row acc
    by_cases hc : c = '"'
    · subst hc
      rw [show escQuotes ('"' :: cs) = '"' :: '"' :: escQuotes cs by
        simp [escQuotes]]
      simp only [List.foldl_cons]
      rw [show step ⟨.inQuoted, f, row, acc⟩ '"' =
            ⟨.afterQuote, f, row, acc⟩ by simp [step]]
      rw [show step ⟨.afterQuote, f, row, acc⟩ '"' =
            ⟨.inQuoted, f ++ ['"'], row, acc⟩ by simp [step]]
      rw [ih]
      simp
    · simp only [escQuotes, if_neg hc, List.foldl_cons]
      rw [show step ⟨.inQuoted, f, row, acc⟩ c =
            ⟨.inQuoted, f ++ [c], row, acc⟩ by simp [step, hc]]
      rw [ih]
      simp

/-- In an unquoted field, ordinary characters are accumulated as is. -/
theorem run_unquoted (s : List Char)
    (hs : ∀ c ∈ s, c ≠ ',' ∧ c ≠ '\n') :
    ∀ f row acc, List.foldl step ⟨.inUnquoted, f, row, acc⟩ s =
      ⟨.inUnquoted, f ++ s, row, acc⟩ := by
  induction s with
  | nil => intro f row acc; simp
  | cons c cs ih =>
    intro f row acc
    obtain ⟨h1, h2⟩ := hs c (List.mem_cons_self c cs)
    simp only [List.foldl_cons]
    rw [show step ⟨.inUnquoted, f, row, acc⟩ c =
          ⟨.inUnquoted, f ++ [c], row, acc⟩ by simp [step, h1, h2]]
    rw [ih (fun c hc => hs c (List.mem_cons_of_mem _ hc))]
    simp

/-- A fresh field fed a nonempty run of ordinary characters is read as
an unquoted field with that content. -/
theorem run_fresh_unquoted (s : List Char) (hne : s ≠ [])
    (hs : ∀ c ∈ s, c ≠ '"' ∧ c ≠ ',' ∧ c ≠ '\n') :
    ∀ row acc, List.foldl step ⟨.atFieldStart, [], row, acc⟩ s =
      ⟨.inUnquoted, s, row, acc⟩ := by
  intro row acc
  cases s with
  | nil => cases hne rfl
  | cons c cs =>
    obtain ⟨h1, h2, h3⟩ := hs c (List.mem_cons_self c cs)
    simp only [List.foldl_cons]
    rw [show step ⟨.atFieldStart, [], row, acc⟩ c =
          ⟨.inUnquoted, [c], row, acc⟩ by simp [step, h1, h2, h3]]
    rw [run_unquoted cs
      (fun c hc => (hs c (List.mem_cons_of_mem _ hc)).2)]
    simp

/-- Reading one emitted cell from the start of a field accumulates
exactly the cell's string content. -/
theorem run_cell (v : JVal) (row : List String) (acc : List (List String)) :
    ∃ m, MidL m ∧
      List.foldl step ⟨.atFieldStart, [], row, acc⟩ (cellChars v) =
        ⟨m, (cellString v).data, row, acc⟩ := by
  cases v with
  | vStr s =>
    refine ⟨.afterQuote, .inr rfl, ?_⟩
    simp only [cellChars, List.foldl_cons]
    rw [show step ⟨.atFieldStart, [], row, acc⟩ '"' =
          ⟨.inQuoted, [], row, acc⟩ by simp [step]]
    rw [List.foldl_append, run_escQuotes]
    simp only [List.nil_append, List.foldl_cons, List.foldl_nil]
    rw [show step ⟨.inQuoted, s.data, row, acc⟩ '"' =
          ⟨.afterQuote, s.data, row, acc⟩ by simp [step]]
    rfl
  | vNum n =>
    refine ⟨.inUnquoted, .inl rfl, ?_⟩
    simp only [cellChars]
    rw [run_fresh_unquoted (intRepr n) (intRepr_ne_nil n) (intRepr_not_special n)]
    rfl

/-- Reading the delimiter-prefixed remaining cells of a line extends the
pending row by exactly their string contents. -/
theorem run_lineTail (vs : List JVal) :
    ∀ m f row acc, MidL m →
      ∃ m' f' row', MidL m' ∧
        List.foldl step ⟨m, f, row, acc⟩ (lineTail vs) =
          ⟨m', f', row', acc⟩ ∧
        row' ++ [String.mk f'] =
          row ++ [String.mk f] ++ vs.map cellString := by
  induction vs with
  | nil =>
    intro m f row acc hm
    exact ⟨m, f, row, hm, by simp [lineTail], by simp⟩
  | cons v vs ih =>
    intro m f row acc hm
    have hexp : lineTail (v :: vs) =
        (',' :: cellChars v) ++ lineTail vs := by
      simp [lineTail]
    rw [hexp, List.foldl_append]
    simp only [List.foldl_cons]
    rw [step_mid_comma hm]
    obtain ⟨m₂, hm₂, hrun⟩ := run_cell v (row ++ [String.mk f]) acc
    rw [hrun]
    obtain ⟨m', f', row', hm', hrun', heq⟩ :=
      ih m₂ (cellString v).data (row ++ [String.mk f]) acc hm₂
    refine ⟨m', f', row', hm', hrun', ?_⟩
    rw [heq]
    simp

/-- Reading a whole emitted line from the start of a record extends the
(empty) pending row by the line's cell contents. -/
theorem run_line (cells : List JVal) (hne : cells ≠ []) (row : List String)
    (acc : List (List String)) :
    ∃ m f' row', MidL m ∧
      List.foldl step ⟨.atFieldStart, [], row, acc⟩ (lineChars cells) =
        ⟨m, f', row', acc⟩ ∧
      row' ++ [String.mk f'] = row ++ cells.map cellString := by
  cases cells with
  | nil => cases hne rfl
  | cons v vs =>
    simp only [lineChars]
    rw [List.foldl_append]
    obtain ⟨m₂, hm₂, hrun⟩ := run_cell v row acc
    rw [hrun]
    obtain ⟨m', f', row', hm', hrun', heq⟩ :=
      run_lineTail vs m₂ (cellString v).data row acc hm₂
    refine ⟨m', f', row', hm', hrun', ?_⟩
    rw [heq]
    simp

/-- Each record of the export contributes one parsed row holding its
cell strings. -/
theorem run_rows (rows : List CsvRec) :
    ∀ m f row acc, MidL m →
      finishP (List.foldl step ⟨m, f, row, acc⟩
          (rows.flatMap (fun r => '\n' :: lineChars (recCells r)))) =
        acc ++ [row ++ [String.mk f]] ++
          rows.map (fun r => (recCells r).map cellString) := by
  induction rows with
  | nil =>
    intro m f row acc hm
    simp only [List.flatMap_nil, List.foldl_nil]
    rw [finishP_mid hm]
    simp
  | cons r rs ih =>
    intro m f row acc hm
    have hexp : (r :: rs).flatMap (fun r => '\n' :: lineChars (recCells r)) =
        ('\n' :: lineChars (recCells r)) ++
          rs.flatMap (fun r => '\n' :: lineChars (recCells r)) := by
      simp
    rw [hexp, List.foldl_append]
    simp only [List.foldl_cons]
    rw [step_mid_newline hm]
    obtain ⟨m', f', row', hm', hrun', heq⟩ :=
      run_line (recCells r) (by simp [recCells]) []
        (acc ++ [row ++ [String.mk f]])
    rw [hrun', ih m' f' row' _ hm', heq]
    simp

/-- Parsing the emitted CSV yields the header row followed by one row
per record holding exactly the records' cell strings, in order. -/
theorem csvParse_csvExportBody (rows : List CsvRec) :
    csvParse (csvExportBody rows) =
      csvFields :: rows.map (fun r => (recCells r).map cellString) := by
  show finishP (List.foldl step initP (csvChars rows)) = _
  rw [show csvChars rows = lineChars (csvFields.map JVal.vStr) ++
        rows.flatMap (fun r => '\n' :: lineChars (recCells r)) from rfl]
  rw [List.foldl_append]
  obtain ⟨m, f', row', hm, hrun, heq⟩ :=
    run_line (csvFields.map JVal.vStr) (by simp [csvFields]) [] []
  rw [show initP = (⟨.atFieldStart, [], [], []⟩ : PState) from rfl, hrun]
  rw [run_rows rows m f' row' [] hm, heq]
  simp [cellString, List.map_map, Function.comp_def]

/-! ## Shape of `toFixed2` -/

theorem string_mk_append (a b : List Char) :
    String.mk a ++ String.mk b = String.mk (a ++ b) := rfl

/-- A `toFixed(2)` rendering always splits as an integer part, a dot,
and a fractional part of exactly two digits. -/
theorem toFixed2_shape (c : Int) :
    ∃ ip fp, toFixed2 c = ip ++ "." ++ fp ∧ fp.length = 2 := by
  refine ⟨String.mk ((if c < 0 then ['-'] else []) ++
      natReprAux (c.natAbs / 100) []),
    String.mk (pad2 (c.natAbs % 100)), ?_, rfl⟩
  rw [show ("." : String) = String.mk ['.'] from rfl,
    string_mk_append, string_mk_append]
  unfold toFixed2
  congr 1
  simp

/-- `0` renders as `0.00` under `toFixed(2)`. -/
theorem toFixed2_zero : toFixed2 0 = "0.00" := by
  have h : natReprAux ((0 : Int).natAbs / 100) [] = [digitChar 0] := by
    rw [natReprAux]
    simp
  rw [toFixed2, h]
  decide

/-! ## The claims -/

/-- C1: for every list of inventory records, parsing the CSV produced
by the export route with a standard CSV parser yields the header row
followed by rows whose string fields equal, field for field, the source
records in the same order; fields containing a comma, quote or newline
are quoted with embedded quotes doubled, so re-parsing recovers the
exact original strings. -/
theorem claim_c1 (rows : List CsvRec) :
    csvParse (csvExportBody rows) =
      csvFields :: rows.map (fun r => (recCells r).map cellString) :=
  csvParse_csvExportBody rows

/-- C2, counterexample: on an empty store the CSV export body is not
the bare header line `id,name,quantity,price,category,supplier\n`
claimed by the spec (the emitter quotes the column names and appends no
trailing newline). -/
theorem claim_c2_counterexample :
    csvRoute [] none ≠
      ⟨200, .fileBody "id,name,quantity,price,category,supplier\n"⟩ := by
  show (⟨200, .fileBody (csvExportBody ((listAll []).map toCsvRec))⟩ :
    HttpResp) ≠ _
  rw [show listAll [] = [] from List.mergeSort_nil]
  decide

/-- C2, amended: on an empty store the CSV export route returns status
200 with exactly the header-only body
`"id","name","quantity","price","category","supplier"` — the six column
names in that fixed order, each wrapped in double quotes,
comma-separated, with no trailing newline. -/
theorem claim_c2 :
    csvRoute [] none =
      ⟨200, .fileBody
        "\"id\",\"name\",\"quantity\",\"price\",\"category\",\"supplier\""⟩ := by
  show (⟨200, .fileBody (csvExportBody ((listAll []).map toCsvRec))⟩ :
    HttpResp) = _
  rw [show listAll [] = [] from List.mergeSort_nil]
  decide

/-- C6, counterexample: when the SQL statement fails, the handler has
opened a connection but its exit path (the catch block) does not
release it, so the connection is not released on every exit path. -/
theorem claim_c6_counterexample :
    DbEv.acquire ∈ routeDbTrace (.queryFail "ER_LOCK_WAIT_TIMEOUT") ∧
    DbEv.release ∉ routeDbTrace (.queryFail "ER_LOCK_WAIT_TIMEOUT") := by
  decide

/-- C6, amended: every operation opens at most one connection and
executes at most one SQL statement; the connection is released exactly
when the statement succeeds — on a successful run the events are
acquire, query, release, while on a failed statement the handler exits
through the catch block with the connection acquired but never
released. -/
theorem claim_c6 (o : StoreOutcome) :
    (routeDbTrace o).count .acquire ≤ 1 ∧
    (routeDbTrace o).count .query ≤ 1 ∧
    (DbEv.release ∈ routeDbTrace o ↔ o = .ok) ∧
    (o = .ok → routeDbTrace o = [.acquire, .query, .release]) ∧
    (∀ e, routeDbTrace (.queryFail e) = [.acquire, .query]) := by
  have hq : ∀ e, routeDbTrace (.queryFail e) = [.acquire, .query] :=
    fun e => rfl
  cases o with
  | connFail e =>
    have hc : routeDbTrace (.connFail e) = [] := rfl
    refine ⟨?_, ?_, ?_, by simp, hq⟩ <;> rw [hc]
    · decide
    · decide
    · simp
  | queryFail e =>
    refine ⟨?_, ?_, ?_, by simp, hq⟩ <;> rw [hq e]
    · decide
    · decide
    · simp
  | ok =>
    exact ⟨by decide, by decide, by decide, fun _ => rfl, hq⟩

/-- C6, witness: the two concrete traces the amended claim describes. -/
theorem claim_c6_witness :
    routeDbTrace .ok = [DbEv.acquire, DbEv.query, DbEv.release] ∧
    routeDbTrace (.queryFail "ETIMEDOUT") = [DbEv.acquire, DbEv.query] :=
  ⟨(claim_c6 .ok).2.2.2.1 rfl, (claim_c6 .ok).2.2.2.2 "ETIMEDOUT"⟩

/-- C7: the list-all query used by `GET /inventory` and both export
routes returns the stored records sorted by name in ascending order (a
permutation of the store, pairwise ordered by name), and each of the
three routes serves exactly that ordered sequence. -/
theorem claim_c7 (store : List Row) :
    (listAll store).Pairwise (fun a b => a.name ≤ b.name) ∧
    (listAll store).Perm store ∧
    getInventoryRoute store none = ⟨200, .jsonList (listAll store)⟩ ∧
    csvRoute store none =
      ⟨200, .fileBody (csvExportBody ((listAll store).map toCsvRec))⟩ ∧
    pdfRoute store none =
      ⟨200, .fileTexts (pdfTexts ((listAll store).map toPdfItem))⟩ := by
  refine ⟨?_, List.mergeSort_perm store _, rfl, rfl, rfl⟩
  have h := @List.sorted_mergeSort Row (fun a b => decide (a.name ≤ b.name))
    (fun a b c h₁ h₂ => by
      simp only [decide_eq_true_eq] at *
      exact le_trans h₁ h₂)
    (fun a b => by
      simp only [Bool.or_eq_true, decide_eq_true_eq]
      exact le_total a.name b.name) store
  simpa [listAll, List.Sorted] using h

/-- C3: for every id with no matching row, get-by-id, update (with a
body that passes validation) and delete each answer 404
`{error:"Item not found"}` — which is not the store-error response —
and conversely, when the id does match a row, update and delete never
answer 404, whatever the store outcome. -/
theorem claim_c3 (store : List Row) (i : Nat) (b : Body)
    (o : Option String) :
    ((∀ r ∈ store, r.id ≠ i) →
      getByIdRoute store i none = notFoundResp ∧
      (bodyValid b = true → (updateRoute b store i none).1 = notFoundResp) ∧
      (deleteRoute store i none).1 = notFoundResp ∧
      notFoundResp ≠ dbErrorResp) ∧
    ((∃ r ∈ store, r.id = i) →
      (updateRoute b store i o).1 ≠ notFoundResp ∧
      (deleteRoute store i o).1 ≠ notFoundResp) := by
  constructor
  · intro habs
    have hnil : rowsWithId store i = [] := by
      rw [rowsWithId, List.filter_eq_nil_iff]
      intro r hr
      simp [habs r hr]
    refine ⟨?_, ?_, ?_, by decide⟩
    · simp [getByIdRoute, hnil]
    · intro hv
      simp [updateRoute, hv, hnil]
    · simp [deleteRoute, hnil]
  · rintro ⟨r, hr, hri⟩
    have hmem : r ∈ rowsWithId store i :=
      List.mem_filter.mpr ⟨hr, by simp [hri]⟩
    have hlen : ¬ (rowsWithId store i).length = 0 := by
      simpa [List.length_eq_zero] using List.ne_nil_of_mem hmem
    constructor
    · cases o with
      | some e =>
        cases hv : bodyValid b <;> simp [updateRoute, hv] <;> decide
      | none =>
        cases hv : bodyValid b <;> simp [updateRoute, hv, hlen] <;> decide
    · cases o with
      | some e => simp [deleteRoute]; decide
      | none => simp [deleteRoute, hlen]; decide

/-- C3, witness: on the one-row store holding id 1, id 999999 is
missing and yields 404 from get-by-id while id 1 never yields 404 from
update. -/
theorem claim_c3_witness :
    getByIdRoute [⟨1, "Widget", 5, .vNum 3, "", ""⟩] 999999 none =
      notFoundResp ∧
    (updateRoute ⟨some "Widget", some 5, .undef, .undef, .undef⟩
      [⟨1, "Widget", 5, .vNum 3, "", ""⟩] 1 none).1 ≠ notFoundResp := by
  have h1 := claim_c3 [⟨1, "Widget", 5, .vNum 3, "", ""⟩] 999999
    ⟨some "Widget", some 5, .undef, .undef, .undef⟩ none
  have h2 := claim_c3 [⟨1, "Widget", 5, .vNum 3, "", ""⟩] 1
    ⟨some "Widget", some 5, .undef, .undef, .undef⟩ none
  exact ⟨(h1.1 (by decide)).1,
    (h2.2 ⟨⟨1, "Widget", 5, .vNum 3, "", ""⟩, by decide, rfl⟩).1⟩

/-- C4: a create body whose name is absent or empty or whose quantity
is absent is rejected with 400 `{error:"Name and quantity are
required"}` and the store is left unchanged, whatever the store
outcome; a body with a non-empty name and a present quantity passes
validation and the insert is performed. -/
theorem claim_c4 (b : Body) (store : List Row) :
    ((b.name = none ∨ b.name = some "" ∨ b.quantity = none) →
      ∀ o, createRoute b store o = (validationResp, store)) ∧
    (∀ s, b.name = some s → s ≠ "" → b.quantity ≠ none →
      bodyValid b = true ∧
      createRoute b store none =
        (⟨200, .jsonMessage "Item added"⟩,
          store ++ [rowOfBody (nextId store) b])) := by
  constructor
  · intro h o
    have hv : bodyValid b = false := by
      rcases h with h | h | h <;>
        simp [bodyValid, nameTruthy, quantityPresent, h]
    simp [createRoute, hv]
  · intro s hn hs hq
    have hv : bodyValid b = true := by
      cases hq2 : b.quantity with
      | none => exact absurd hq2 hq
      | some q => simp [bodyValid, nameTruthy, quantityPresent, hn, hq2, hs]
    exact ⟨hv, by simp [createRoute, hv]⟩

/-- C4, witness: `{quantity:5}` without a name is rejected and inserts
nothing; `{name:"Widget", quantity:5}` passes and inserts one row. -/
theorem claim_c4_witness :
    createRoute ⟨none, some 5, .undef, .undef, .undef⟩ [] none =
      (validationResp, []) ∧
    createRoute ⟨some "Widget", some 5, .undef, .undef, .undef⟩ [] none =
      (⟨200, .jsonMessage "Item added"⟩,
        [rowOfBody 1 ⟨some "Widget", some 5, .undef, .undef, .undef⟩]) := by
  have h1 := (claim_c4 ⟨none, some 5, .undef, .undef, .undef⟩ []).1
    (.inl rfl) none
  have h2 := (claim_c4 ⟨some "Widget", some 5, .undef, .undef, .undef⟩ []).2
    "Widget" rfl (by decide) (by decide)
  exact ⟨h1, by simpa using h2.2⟩

/-- C5: in the PDF rendering of a record, a missing quantity renders
as "0", a missing category and a missing supplier each render as "-",
and the price always renders as the currency glyph followed by an
integer part, a dot, and exactly two decimal digits, with a missing or
non-numeric price rendered as 0.00. -/
theorem claim_c5 (it : PdfItem) :
    (it.quantity = none → pdfQtyCell it.quantity = "0") ∧
    (it.category = none → pdfDashCell it.category = "-") ∧
    (it.supplier = none → pdfDashCell it.supplier = "-") ∧
    (∃ ip fp, pdfPriceCell it.price = currencyGlyph ++ ip ++ "." ++ fp ∧
      fp.length = 2) ∧
    ((it.price = .missing ∨ ∃ s, it.price = .nonNumeric s) →
      pdfPriceCell it.price = currencyGlyph ++ "0.00") ∧
    pdfRowCells it =
      [it.name, pdfQtyCell it.quantity, pdfPriceCell it.price,
        pdfDashCell it.category, pdfDashCell it.supplier] := by
  refine ⟨fun h => by simp [h, pdfQtyCell],
    fun h => by simp [h, pdfDashCell],
    fun h => by simp [h, pdfDashCell], ?_, ?_, rfl⟩
  · obtain ⟨ip, fp, heq, hlen⟩ := toFixed2_shape (parseFloatOr0 it.price)
    refine ⟨ip, fp, ?_, hlen⟩
    rw [pdfPriceCell, heq]
    simp [String.append_assoc]
  · intro h
    have h0 : parseFloatOr0 it.price = 0 := by
      rcases h with h | ⟨s, h⟩ <;> simp [h, parseFloatOr0]
    rw [pdfPriceCell, h0, toFixed2_zero]

/-- C5, witness: a record with missing quantity, category, supplier and
price renders as "0", "-", "-" and the 0.00 price. -/
theorem claim_c5_witness :
    pdfQtyCell none = "0" ∧ pdfDashCell none = "-" ∧
    pdfPriceCell .missing = currencyGlyph ++ "0.00" := by
  have h := claim_c5 ⟨"x", none, .missing, none, none⟩
  exact ⟨h.1 rfl, h.2.1 rfl, h.2.2.2.2.1 (.inl rfl)⟩

/-- C8: whenever the store fails — with any error detail `e` — the five
JSON routes answer 500 with exactly `{error:"Database error"}` and the
two export routes answer 500 with their fixed plain-text failure
message; since the responses are the same for every `e`, no internal
error detail reaches the response body. -/
theorem claim_c8 (store : List Row) (i : Nat) (b : Body) (e : String)
    (hvalid : bodyValid b = true) :
    getInventoryRoute store (some e) = dbErrorResp ∧
    getByIdRoute store i (some e) = dbErrorResp ∧
    (createRoute b store (some e)).1 = dbErrorResp ∧
    (updateRoute b store i (some e)).1 = dbErrorResp ∧
    (deleteRoute store i (some e)).1 = dbErrorResp ∧
    csvRoute store (some e) = ⟨500, .fileBody "Failed to export CSV"⟩ ∧
    pdfRoute store (some e) = ⟨500, .fileBody "Failed to export PDF"⟩ := by
  refine ⟨rfl, rfl, ?_, ?_, rfl, rfl, rfl⟩ <;>
    simp [createRoute, updateRoute, hvalid]

/-- C8, witness: a store failure on the empty store with a valid body
yields the fixed database-error response from the list route. -/
theorem claim_c8_witness :
    getInventoryRoute [] (some "connect ECONNREFUSED") = dbErrorResp :=
  (claim_c8 [] 1 ⟨some "Widget", some 5, .undef, .undef, .undef⟩
    "connect ECONNREFUSED" (by decide)).1

/-- C9: validation treats name and quantity asymmetrically — a body
with quantity 0 and a non-empty name passes validation and proceeds,
while a body with an empty-string name and a present quantity is
rejected with 400, on both create and update. -/
theorem claim_c9 (s : String) (hs : s ≠ "") (q : Int)
    (p c sup : JsVal) (store : List Row) (i : Nat) (o : Option String) :
    bodyValid ⟨some s, some 0, p, c, sup⟩ = true ∧
    bodyValid ⟨some "", some q, p, c, sup⟩ = false ∧
    createRoute ⟨some "", some q, p, c, sup⟩ store o =
      (validationResp, store) ∧
    (updateRoute ⟨some "", some q, p, c, sup⟩ store i o).1 =
      validationResp ∧
    (createRoute ⟨some s, some 0, p, c, sup⟩ store none).1 =
      ⟨200, .jsonMessage "Item added"⟩ ∧
    (updateRoute ⟨some s, some 0, p, c, sup⟩ store i none).1 ≠
      validationResp := by
  have hv1 : bodyValid ⟨some s, some 0, p, c, sup⟩ = true := by
    simp [bodyValid, nameTruthy, quantityPresent, hs]
  have hv2 : bodyValid ⟨some "", some q, p, c, sup⟩ = false := by
    simp [bodyValid, nameTruthy]
  refine ⟨hv1, hv2, by simp [createRoute, hv2], by simp [updateRoute, hv2],
    by simp [createRoute, hv1], ?_⟩
  by_cases hlen : (rowsWithId store i).length = 0 <;>
    simp [updateRoute, hv1, hlen] <;> decide

/-- C9, witness: quantity 0 with name "Widget" passes validation,
empty name with quantity 5 is rejected. -/
theorem claim_c9_witness :
    bodyValid ⟨some "Widget", some 0, .undef, .undef, .undef⟩ = true ∧
    createRoute ⟨some "", some 5, .undef, .undef, .undef⟩ [] none =
      (validationResp, []) := by
  have h := claim_c9 "Widget" (by decide) 5 .undef .undef .undef [] 1 none
  exact ⟨h.1, h.2.2.1⟩

/-- C10: defaulting of the optional fields applies to every falsy
supplied value, not only absent ones — a price supplied as 0, the empty
string, null or false is bound and stored as 0, and a category or
supplier supplied as any falsy value is bound and stored as the empty
string, on both the create insert and the update. -/
theorem claim_c10 (b : Body) (store : List Row) (i : Nat) :
    ((b.price = .num 0 ∨ b.price = .str "" ∨ b.price = .null ∨
        b.price = .boolean false) → jsOr b.price (.num 0) = .num 0) ∧
    (truthy b.category = false → jsOr b.category (.str "") = .str "") ∧
    (truthy b.supplier = false → jsOr b.supplier (.str "") = .str "") ∧
    (truthy b.price = false →
      jsOr b.price (.num 0) = .num 0 ∧ (rowOfBody i b).price = .vNum 0) ∧
    (truthy b.category = false → (rowOfBody i b).category = "") ∧
    (truthy b.supplier = false → (rowOfBody i b).supplier = "") ∧
    (bodyValid b = true →
      (createRoute b store none).2 = store ++ [rowOfBody (nextId store) b] ∧
      (updateRoute b store i none).2 =
        store.map (fun r => if r.id == i then rowOfBody r.id b else r)) := by
  have hp : truthy b.price = false → jsOr b.price (.num 0) = .num 0 :=
    fun h => by simp [jsOr, h]
  refine ⟨?_, fun h => by simp [jsOr, h], fun h => by simp [jsOr, h],
    fun h => ⟨hp h, by simp [rowOfBody, hp h, dbPrice]⟩,
    fun h => by simp [rowOfBody, jsOr, h, dbStr],
    fun h => by simp [rowOfBody, jsOr, h, dbStr], ?_⟩
  · intro h
    apply hp
    rcases h with h | h | h | h <;> simp [h, truthy]
  · intro hv
    constructor
    · simp [createRoute, hv]
    · by_cases hlen : (rowsWithId store i).length = 0 <;>
        simp [updateRoute, hv, hlen]

/-- C10, witness: a body supplying price 0, an empty category string
and supplier false stores price 0 and empty strings. -/
theorem claim_c10_witness :
    jsOr (.num 0) (.num 0) = .num 0 ∧
    jsOr (.str "") (.str "") = .str "" ∧
    (rowOfBody 1 ⟨some "W", some 5, .num 0, .str "", .boolean false⟩).price =
      .vNum 0 ∧
    (rowOfBody 1 ⟨some "W", some 5, .num 0, .str "", .boolean false⟩).supplier =
      "" := by
  have h := claim_c10 ⟨some "W", some 5, .num 0, .str "", .boolean false⟩ [] 1
  exact ⟨h.1 (.inl rfl), h.2.1 rfl, (h.2.2.2.1 rfl).2, h.2.2.2.2.2.1 rfl⟩

end Inventory
